import Mathlib

/-!
Verification of the AWS discovery/provisioning engine of vmclarity
(`runtime_scan/pkg/provider/aws/client.go`), as a shallow embedding.

Modelling conventions:
- Go slices become Lean lists.  In `Discover`, `vpcFilters := append(filters,
  createVPCFilters(vpc)...)` may share the backing array of `filters` when
  spare capacity exists; however, `append` only writes indices `>= len(filters)`,
  the base slice is only ever read up to its own length, and each `vpcFilters`
  value is consumed synchronously by `GetInstances` before the next iteration's
  append.  Hence the observable value of every slice at every use site is
  exactly the list `old elements ++ new elements`, and the pure list embedding
  is observationally faithful.
- Network calls (`DescribeInstances`, `DescribeRegions`, `RunInstances`) become
  oracle parameters: a scripted page list for pagination, an `Except`-valued
  query function for per-region/VPC instance queries, and an `Except`-valued
  region catalog.  Errors are strings; `fmt.Errorf("...: %v", err)` wrapping
  becomes string concatenation.
- The Go map `instanceTagsMap` is built by in-order insertion with overwrite,
  so a lookup returns the value of the LAST tag carrying the key; we model the
  lookup as `find?` over the reversed list.
-/

namespace VMClarity

/-- Embeds `Tag` from the aws provider scope types: `{Key, Val string}`. -/
structure Tag where
  key : String
  val : String
deriving DecidableEq, Repr

/-- Embeds `SecurityGroup` scope type: `{id string}`. -/
structure SecurityGroup where
  id : String
deriving DecidableEq, Repr

/-- Embeds `VPC` scope type: `{id string, securityGroups []SecurityGroup}`. -/
structure VPC where
  id : String
  securityGroups : List SecurityGroup
deriving DecidableEq, Repr

/-- Embeds `Region` scope type: `{name string, vpcs []VPC}`. -/
structure Region where
  name : String
  vpcs : List VPC
deriving DecidableEq, Repr

/-- Embeds `ScanScope` (the converted, provider-internal scope). -/
structure ScanScope where
  allRegions : Bool
  regions : List Region
  scanStopped : Bool
  tagSelector : List Tag
  excludeTags : List Tag
deriving DecidableEq, Repr

/-- Embeds `ec2types.Filter`: `{Name *string, Values []string}` (name always set here). -/
structure Filter where
  name : String
  values : List String
deriving DecidableEq, Repr

/-- Embeds `ec2types.Tag` on an EC2 instance: `{Key, Value *string}` (both set). -/
structure EC2Tag where
  key : String
  value : String
deriving DecidableEq, Repr

/-- The filter-name constants of the source. -/
def vpcIDFilterName : String := "vpc-id"

/-- Embeds `instance.group-id` filter name constant. -/
def sgIDFilterName : String := "instance.group-id"

/-- Embeds `instance-state-name` filter name constant. -/
def instanceStateFilterName : String := "instance-state-name"

/-- Embeds `getVPCSecurityGroupsIDs`: collects the security-group ids of a VPC. -/
def getVPCSecurityGroupsIDs (vpc : VPC) : List String :=
  vpc.securityGroups.map (fun sg => sg.id)

/-- Embeds `createVPCFilters`: a `vpc-id` filter for the VPC's id, then an
`instance.group-id` filter with all group ids when the VPC has any. -/
def createVPCFilters (vpc : VPC) : List Filter :=
  let ret : List Filter := [⟨vpcIDFilterName, [vpc.id]⟩]
  let sgs := getVPCSecurityGroupsIDs vpc
  if sgs.length > 0 then
    ret ++ [⟨sgIDFilterName, sgs⟩]
  else
    ret

/-- Embeds `createInstanceStateFilters`: one `instance-state-name` filter, values
`["running"]`, extended with `"stopped"` when `scanStopped`. -/
def createInstanceStateFilters (scanStopped : Bool) : List Filter :=
  let states := if scanStopped then ["running", "stopped"] else ["running"]
  [⟨instanceStateFilterName, states⟩]

/-- Embeds `createInclusionTagsFilters`: one filter per selector tag, named
`"tag:" + key`, single value `val`. -/
def createInclusionTagsFilters (tags : List Tag) : List Filter :=
  tags.map (fun tag => ⟨"tag:" ++ tag.key, [tag.val]⟩)

/-- C6: tag-inclusion filter compilation is exactly one filter per selector
tag, in order, named `"tag:" ++ key` with the singleton value set `[val]`,
and nothing else. -/
theorem c6_inclusion_tags_filters (tags : List Tag) :
    createInclusionTagsFilters tags
      = tags.map (fun tag => ⟨"tag:" ++ tag.key, [tag.val]⟩) := by
  rfl

/-- C7: the instance-state filter is a single `instance-state-name` filter
whose values are `["running"]` when `scanStopped` is false and
`["running","stopped"]` when it is true. -/
theorem c7_instance_state_filters (scanStopped : Bool) :
    createInstanceStateFilters scanStopped
      = [⟨instanceStateFilterName,
          if scanStopped then ["running", "stopped"] else ["running"]⟩] := by
  cases scanStopped <;> rfl

/-- C8: VPC filter compilation yields the `vpc-id` filter with exactly that
VPC's id, followed by an `instance.group-id` filter carrying exactly all the
VPC's security-group ids if and only if the VPC has at least one security
group; with no security groups only the `vpc-id` filter is produced. -/
theorem c8_vpc_filters (vpc : VPC) :
    createVPCFilters vpc
      = if vpc.securityGroups = [] then
          [⟨vpcIDFilterName, [vpc.id]⟩]
        else
          [⟨vpcIDFilterName, [vpc.id]⟩,
           ⟨sgIDFilterName, vpc.securityGroups.map (fun sg => sg.id)⟩] := by
  cases h : vpc.securityGroups with
  | nil => simp [createVPCFilters, getVPCSecurityGroupsIDs, h]
  | cons sg rest => simp [createVPCFilters, getVPCSecurityGroupsIDs, h]

/-- The lookup into `instanceTagsMap` after the Go loop
`for _, tag := range instanceTags { instanceTagsMap[*tag.Key] = *tag.Value }`:
insertion in list order with overwrite, so a lookup yields the value of the
last tag with the key, i.e. the first match in the reversed list. -/
def instanceTagsMapLookup (instanceTags : List EC2Tag) (key : String) :
    Option String :=
  (instanceTags.reverse.find? (fun t => t.key == key)).map (fun t => t.value)

/-- Embeds `hasExcludeTags`: AND logic — the instance is excluded only when it has
all the exclude tags; empty exclude set or untagged instance excludes nothing. -/
def hasExcludeTags (excludeTags : List Tag) (instanceTags : List EC2Tag) :
    Bool :=
  if excludeTags.length == 0 then false
  else if instanceTags.length == 0 then false
  else excludeTags.all (fun tag =>
    match instanceTagsMapLookup instanceTags tag.key with
    | none => false
    | some v => v == tag.val)

/-- A `(key,value)` pair is present among the instance's tags with exactly
matching value. -/
def tagPresent (instanceTags : List EC2Tag) (tag : Tag) : Bool :=
  instanceTags.any (fun t => t.key == tag.key && t.value == tag.val)

theorem instanceTagsMapLookup_eq_some_iff (instanceTags : List EC2Tag)
    (hnd : (instanceTags.map (fun t => t.key)).Nodup) (k v : String) :
    instanceTagsMapLookup instanceTags k = some v ↔
      ∃ t ∈ instanceTags, t.key = k ∧ t.value = v := by
  unfold instanceTagsMapLookup
  constructor
  · intro h
    rcases Option.map_eq_some'.mp h with ⟨t, hfind, hval⟩
    refine ⟨t, ?_, ?_, hval⟩
    · exact List.mem_reverse.mp (List.mem_of_find?_eq_some hfind)
    · have hp := List.find?_some hfind
      simpa using hp
  · rintro ⟨t, hmem, hkey, hval⟩
    have hsome : (instanceTags.reverse.find? (fun t => t.key == k)).isSome := by
      apply List.find?_isSome.mpr
      exact ⟨t, List.mem_reverse.mpr hmem, by simp [hkey]⟩
    rcases Option.isSome_iff_exists.mp hsome with ⟨t', hfind⟩
    have ht'mem : t' ∈ instanceTags := List.mem_reverse.mp (List.mem_of_find?_eq_some hfind)
    have ht'key : t'.key = k := by
      have hp := List.find?_some hfind
      simpa using hp
    have : t' = t := by
      have := List.inj_on_of_nodup_map hnd ht'mem hmem (by rw [ht'key, hkey])
      exact this
    rw [hfind]
    simp [this, hval]

/-- C2: for instance tag lists with pairwise-distinct keys (the EC2 tag
invariant), `hasExcludeTags` returns true iff the exclude set is non-empty,
the instance's tag list is non-empty, and every exclude pair is present among
the instance's tags with exactly matching value; hence an empty exclude set
excludes nothing, an untagged instance is never excluded, and one missing or
mismatching pair means the instance is kept. -/
theorem c2_has_exclude_tags (excludeTags : List Tag) (instanceTags : List EC2Tag)
    (hnd : (instanceTags.map (fun t => t.key)).Nodup) :
    hasExcludeTags excludeTags instanceTags = true ↔
      excludeTags ≠ [] ∧ instanceTags ≠ [] ∧
        ∀ tag ∈ excludeTags, tagPresent instanceTags tag = true := by
  rcases excludeTags with _ | ⟨e, es⟩
  · simp [hasExcludeTags]
  rcases instanceTags with _ | ⟨t, ts⟩
  · simp [hasExcludeTags]
  unfold hasExcludeTags
  rw [if_neg (by simp), if_neg (by simp)]
  rw [List.all_eq_true]
  constructor
  · intro h
    refine ⟨by simp, by simp, ?_⟩
    intro tag htag
    have hthis := h tag htag
    cases hlk : instanceTagsMapLookup (t :: ts) tag.key with
    | none => rw [hlk] at hthis; simp at hthis
    | some v =>
      rw [hlk] at hthis
      have hv : v = tag.val := by simpa using hthis
      subst hv
      rcases (instanceTagsMapLookup_eq_some_iff (t :: ts) hnd tag.key tag.val).mp hlk with
        ⟨t', hmem, hkey, hval⟩
      exact List.any_eq_true.mpr ⟨t', hmem, by simp [hkey, hval]⟩
  · rintro ⟨-, -, hall⟩
    intro tag htag
    rcases List.any_eq_true.mp (hall tag htag) with ⟨t', hmem, hprop⟩
    have hpq := (Bool.and_eq_true _ _).mp hprop
    have hkey : t'.key = tag.key := by
      have := hpq.1
      simpa using this
    have hval : t'.value = tag.val := by
      have := hpq.2
      simpa using this
    have : instanceTagsMapLookup (t :: ts) tag.key = some tag.val :=
      (instanceTagsMapLookup_eq_some_iff (t :: ts) hnd tag.key tag.val).mpr
        ⟨t', hmem, hkey, hval⟩
    rw [this]
    simp

/-- C2 witness: a concrete evaluation discharging the hypothesis. -/
theorem c2_has_exclude_tags_witness :
    hasExcludeTags [⟨"env", "prod"⟩] [⟨"env", "prod"⟩, ⟨"team", "sec"⟩] = true ↔
      ([⟨"env", "prod"⟩] : List Tag) ≠ [] ∧
        ([⟨"env", "prod"⟩, ⟨"team", "sec"⟩] : List EC2Tag) ≠ [] ∧
        ∀ tag ∈ ([⟨"env", "prod"⟩] : List Tag),
          tagPresent [⟨"env", "prod"⟩, ⟨"team", "sec"⟩] tag = true :=
  c2_has_exclude_tags [⟨"env", "prod"⟩] [⟨"env", "prod"⟩, ⟨"team", "sec"⟩]
    (by simp)

/-- An EC2 instance as returned inside a `DescribeInstances` reservation:
the fields the discoverer reads (`InstanceId`, `Tags`). -/
structure EC2Instance where
  instanceId : String
  tags : List EC2Tag
deriving DecidableEq, Repr

/-- Embeds `ec2types.Reservation` (the field read: `Instances`). -/
structure Reservation where
  instances : List EC2Instance
deriving DecidableEq, Repr

/-- Embeds `ec2.DescribeInstancesOutput` (fields read: `Reservations`, `NextToken`). -/
structure DescribeInstancesOutput where
  reservations : List Reservation
  nextToken : Option String
deriving DecidableEq, Repr

/-- The observable fields of a discovered `InstanceImpl` handle. -/
structure DiscoveredInstance where
  id : String
  region : String
deriving DecidableEq, Repr

/-- One `DescribeInstances` request as issued by `GetInstances`: the filters,
the continuation token (absent on the first call), and the region option. -/
structure DescribeCall where
  filters : List Filter
  nextToken : Option String
  region : String
deriving DecidableEq, Repr

/-- Embeds `getInstancesFromDescribeInstancesOutput`: walks reservations and their
instances, drops an instance when `hasExcludeTags`, and wraps the survivors
as handles carrying the instance id and the query's region. -/
def getInstancesFromDescribeInstancesOutput (result : DescribeInstancesOutput)
    (excludeTags : List Tag) (regionID : String) : List DiscoveredInstance :=
  result.reservations.flatMap (fun r =>
    r.instances.filterMap (fun inst =>
      if hasExcludeTags excludeTags inst.tags then none
      else some ⟨inst.instanceId, regionID⟩))

/-- The pagination loop of `GetInstances` against a scripted provider: the
n-th element of the script is the provider's response to the n-th request.
The first request carries token `none`; while the current response carries a
`NextToken`, the same filtered query is re-issued with that token.  `none` is
returned when the script runs out while a token is still pending (the mock is
then underdetermined).  The call trace is returned alongside the result. -/
def runPages (filters : List Filter) (excludeTags : List Tag)
    (regionID : String) :
    Option String → List DescribeInstancesOutput →
      Option (List DiscoveredInstance × List DescribeCall)
  | _, [] => none
  | tok, out :: rest =>
    let call : DescribeCall := ⟨filters, tok, regionID⟩
    let insts := getInstancesFromDescribeInstancesOutput out excludeTags regionID
    match out.nextToken with
    | none => some (insts, [call])
    | some t =>
      match runPages filters excludeTags regionID (some t) rest with
      | none => none
      | some (more, calls) => some (insts ++ more, call :: calls)

/-- Embeds `GetInstances` (lines 273–304): first call without a token, then the
pagination loop. -/
def GetInstances (pages : List DescribeInstancesOutput) (filters : List Filter)
    (excludeTags : List Tag) (regionID : String) :
    Option (List DiscoveredInstance × List DescribeCall) :=
  runPages filters excludeTags regionID none pages

/-- All instances of a response, before exclusion filtering. -/
def allInstances (result : DescribeInstancesOutput) : List EC2Instance :=
  result.reservations.flatMap (fun r => r.instances)

theorem getInstancesFromOutput_eq_filter (result : DescribeInstancesOutput)
    (excludeTags : List Tag) (regionID : String) :
    getInstancesFromDescribeInstancesOutput result excludeTags regionID
      = ((allInstances result).filter
            (fun i => !(hasExcludeTags excludeTags i.tags))).map
          (fun i => ⟨i.instanceId, regionID⟩) := by
  unfold getInstancesFromDescribeInstancesOutput allInstances
  induction result.reservations with
  | nil => simp
  | cons r rs ih =>
    simp only [List.flatMap_cons, List.filter_append, List.map_append, ih]
    congr 1
    induction r.instances with
    | nil => simp
    | cons i is ih2 =>
      by_cases h : hasExcludeTags excludeTags i.tags
      · simp [h, ih2]
      · simp [h, ih2]

theorem runPages_spec (filters : List Filter) (excludeTags : List Tag)
    (regionID : String) (front : List DescribeInstancesOutput)
    (lastPage : DescribeInstancesOutput)
    (junk : List DescribeInstancesOutput)
    (hmid : ∀ p ∈ front, p.nextToken.isSome)
    (hlast : lastPage.nextToken = none) :
    ∀ tok, ∃ calls,
      runPages filters excludeTags regionID tok ((front ++ [lastPage]) ++ junk)
        = some ((front ++ [lastPage]).flatMap
            (fun p => getInstancesFromDescribeInstancesOutput p excludeTags regionID),
          calls)
      ∧ calls.map (fun c => c.filters)
          = List.replicate (front ++ [lastPage]).length filters
      ∧ calls.map (fun c => c.region)
          = List.replicate (front ++ [lastPage]).length regionID
      ∧ calls.map (fun c => c.nextToken)
          = tok :: front.map (fun p => p.nextToken) := by
  induction front with
  | nil =>
    intro tok
    refine ⟨[⟨filters, tok, regionID⟩], ?_⟩
    simp [runPages, hlast]
  | cons p rest ih =>
    intro tok
    have hp : p.nextToken.isSome := hmid p (by simp)
    rcases Option.isSome_iff_exists.mp hp with ⟨t, ht⟩
    have hmid' : ∀ q ∈ rest, q.nextToken.isSome := fun q hq => hmid q (by simp [hq])
    rcases ih hmid' (some t) with ⟨calls, hrun, hf, hr, htok⟩
    refine ⟨⟨filters, tok, regionID⟩ :: calls, ?_, ?_, ?_, ?_⟩
    · have hrun' : runPages filters excludeTags regionID (some t)
          (rest ++ lastPage :: junk)
            = some ((rest ++ [lastPage]).flatMap
                (fun p => getInstancesFromDescribeInstancesOutput p excludeTags regionID),
              calls) := by
        simpa using hrun
      simp only [List.cons_append, List.append_assoc, List.nil_append]
      simp [runPages, ht, hrun', List.flatMap_append]
    · simp [hf, List.replicate_succ]
    · simp [hr, List.replicate_succ]
    · simp [htok, ht]

/-- C3: against a provider script of `front` pages each carrying a
continuation token followed by a final page without one, `GetInstances`
issues exactly one call per page — the first with no token, each later one
with the token returned by the previous page, all with the same filters and
region —, returns the concatenation of every page's surviving instances,
never consults the script past the token-less page (appending extra pages
changes nothing), and, whenever the provider's pages list each instance id
at most once overall, each discovered instance id appears exactly once. -/
theorem c3_get_instances_pagination (front : List DescribeInstancesOutput)
    (lastPage : DescribeInstancesOutput) (junk : List DescribeInstancesOutput)
    (filters : List Filter) (excludeTags : List Tag) (regionID : String)
    (hmid : ∀ p ∈ front, p.nextToken.isSome)
    (hlast : lastPage.nextToken = none) :
    ∃ calls,
      GetInstances (front ++ [lastPage]) filters excludeTags regionID
        = some ((front ++ [lastPage]).flatMap
            (fun p => getInstancesFromDescribeInstancesOutput p excludeTags regionID),
          calls)
      ∧ calls.map (fun c => c.filters)
          = List.replicate (front ++ [lastPage]).length filters
      ∧ calls.map (fun c => c.region)
          = List.replicate (front ++ [lastPage]).length regionID
      ∧ calls.map (fun c => c.nextToken)
          = none :: front.map (fun p => p.nextToken)
      ∧ GetInstances ((front ++ [lastPage]) ++ junk) filters excludeTags regionID
          = GetInstances (front ++ [lastPage]) filters excludeTags regionID
      ∧ (((front ++ [lastPage]).flatMap
            (fun p => (allInstances p).map (fun i => i.instanceId))).Nodup →
          (((front ++ [lastPage]).flatMap
              (fun p => getInstancesFromDescribeInstancesOutput p excludeTags regionID)).map
            (fun i => i.id)).Nodup) := by
  rcases runPages_spec filters excludeTags regionID front lastPage junk hmid hlast
    none with ⟨calls, hrun, hf, hr, htok⟩
  rcases runPages_spec filters excludeTags regionID front lastPage [] hmid hlast
    none with ⟨calls0, hrun0, hf0, hr0, htok0⟩
  rw [List.append_nil] at hrun0
  refine ⟨calls0, hrun0, hf0, hr0, htok0, ?_, ?_⟩
  · unfold GetInstances
    rw [hrun, hrun0]
    have : calls = calls0 := by
      have h1 : calls.map (fun c => c.nextToken) = calls0.map (fun c => c.nextToken) := by
        rw [htok, htok0]
      have h2 : calls.map (fun c => c.filters) = calls0.map (fun c => c.filters) := by
        rw [hf, hf0]
      have h3 : calls.map (fun c => c.region) = calls0.map (fun c => c.region) := by
        rw [hr, hr0]
      clear hrun hrun0 hf hf0 hr hr0 htok htok0
      induction calls generalizing calls0 with
      | nil => cases calls0 <;> simp_all
      | cons c cs ih =>
        cases calls0 with
        | nil => simp_all
        | cons c0 cs0 =>
          simp only [List.map_cons, List.cons_inj_right, List.cons.injEq] at h1 h2 h3 ⊢
          refine ⟨?_, ih cs0 h1.2 h2.2 h3.2⟩
          cases c; cases c0
          simp_all
    rw [this]
  · intro hnd
    have hsub : ∀ pages : List DescribeInstancesOutput,
        ((pages.flatMap
            (fun p => getInstancesFromDescribeInstancesOutput p excludeTags regionID)).map
          (fun i => i.id)).Sublist
          (pages.flatMap (fun p => (allInstances p).map (fun i => i.instanceId))) := by
      intro pages
      induction pages with
      | nil => simp
      | cons p ps ih =>
        simp only [List.flatMap_cons, List.map_append]
        refine List.Sublist.append ?_ ih
        rw [getInstancesFromOutput_eq_filter]
        rw [List.map_map]
        have : ((allInstances p).filter
              (fun i => !(hasExcludeTags excludeTags i.tags))).Sublist
            (allInstances p) := List.filter_sublist _
        simpa using List.Sublist.map (fun i => i.instanceId) this
    exact List.Nodup.sublist (hsub (front ++ [lastPage])) hnd

/-- A concrete first page for the C3 witness script. -/
def c3Page1 : DescribeInstancesOutput :=
  ⟨[⟨[⟨"i-1", []⟩]⟩], some "t1"⟩

/-- A concrete second page for the C3 witness script. -/
def c3Page2 : DescribeInstancesOutput :=
  ⟨[⟨[⟨"i-2", []⟩]⟩], some "t2"⟩

/-- A concrete final page (no continuation token) for the C3 witness script. -/
def c3Page3 : DescribeInstancesOutput :=
  ⟨[⟨[⟨"i-3", []⟩]⟩], none⟩

/-- A trailing page that must never be consulted in the C3 witness. -/
def c3Junk : DescribeInstancesOutput :=
  ⟨[⟨[⟨"i-9", []⟩]⟩], none⟩

/-- C3 witness: a three-page script (two pages with a continuation token, one
without) at concrete instances. -/
theorem c3_get_instances_pagination_witness :
    ∃ calls,
      GetInstances ([c3Page1, c3Page2] ++ [c3Page3]) [] [] "us-east-1"
        = some ((([c3Page1, c3Page2] ++ [c3Page3]).flatMap
            (fun p => getInstancesFromDescribeInstancesOutput p [] "us-east-1")),
          calls)
      ∧ calls.map (fun c => c.filters)
          = List.replicate ([c3Page1, c3Page2] ++ [c3Page3]).length []
      ∧ calls.map (fun c => c.region)
          = List.replicate ([c3Page1, c3Page2] ++ [c3Page3]).length "us-east-1"
      ∧ calls.map (fun c => c.nextToken)
          = none :: [c3Page1, c3Page2].map (fun p => p.nextToken)
      ∧ GetInstances (([c3Page1, c3Page2] ++ [c3Page3]) ++ [c3Junk]) [] [] "us-east-1"
          = GetInstances ([c3Page1, c3Page2] ++ [c3Page3]) [] [] "us-east-1"
      ∧ ((([c3Page1, c3Page2] ++ [c3Page3]).flatMap
            (fun p => (allInstances p).map (fun i => i.instanceId))).Nodup →
          ((([c3Page1, c3Page2] ++ [c3Page3]).flatMap
              (fun p => getInstancesFromDescribeInstancesOutput p [] "us-east-1")).map
            (fun i => i.id)).Nodup) :=
  c3_get_instances_pagination [c3Page1, c3Page2] c3Page3 [c3Junk] [] [] "us-east-1"
    (by
      intro p hp
      simp only [List.mem_cons, List.not_mem_nil, or_false] at hp
      rcases hp with h | h <;> subst h <;> rfl)
    rfl

/-- Embeds `models.Tag` as read by `convertTags`. -/
structure AwsTag where
  key : String
  value : String
deriving DecidableEq, Repr

/-- Embeds `models.AwsSecurityGroup`. -/
structure AwsSecurityGroup where
  id : String
deriving DecidableEq, Repr

/-- Embeds `models.AwsVPC` (`SecurityGroups` is a nullable pointer). -/
structure AwsVPC where
  id : String
  securityGroups : Option (List AwsSecurityGroup)
deriving DecidableEq, Repr

/-- Embeds `models.AwsRegion` (`Vpcs` is a nullable pointer). -/
structure AwsRegion where
  name : String
  vpcs : Option (List AwsVPC)
deriving DecidableEq, Repr

/-- Embeds `models.AwsScanScope`: every field is a nullable pointer. -/
structure AwsScanScope where
  allRegions : Option Bool
  regions : Option (List AwsRegion)
  shouldScanStoppedInstances : Option Bool
  instanceTagSelector : Option (List AwsTag)
  instanceTagExclusion : Option (List AwsTag)
deriving DecidableEq, Repr

/-- Embeds `convertBool`: nil pointer means false. -/
def convertBool (all : Option Bool) : Bool :=
  match all with
  | some b => b
  | none => false

/-- Embeds `convertTags`: nil pointer means the empty tag list. -/
def convertTags (tags : Option (List AwsTag)) : List Tag :=
  match tags with
  | some ts => ts.map (fun t => ⟨t.key, t.value⟩)
  | none => []

/-- Embeds `convertSecurityGroups`: nil pointer means the empty list. -/
def convertSecurityGroups (securityGroups : Option (List AwsSecurityGroup)) :
    List SecurityGroup :=
  match securityGroups with
  | some sgs => sgs.map (fun sg => ⟨sg.id⟩)
  | none => []

/-- Embeds `convertVPCs`. -/
def convertVPCs (vpcs : Option (List AwsVPC)) : List VPC :=
  match vpcs with
  | some vs => vs.map (fun v => ⟨v.id, convertSecurityGroups v.securityGroups⟩)
  | none => []

/-- Embeds `convertRegions`. -/
def convertRegions (regions : Option (List AwsRegion)) : List Region :=
  match regions with
  | some rs => rs.map (fun r => ⟨r.name, convertVPCs r.vpcs⟩)
  | none => []

/-- Embeds `convertScope`. -/
def convertScope (scope : AwsScanScope) : ScanScope :=
  { allRegions := convertBool scope.allRegions
    regions := convertRegions scope.regions
    scanStopped := convertBool scope.shouldScanStoppedInstances
    tagSelector := convertTags scope.instanceTagSelector
    excludeTags := convertTags scope.instanceTagExclusion }

/-- Embeds `ListAllRegions`: queries the provider's region catalog (the
`DescribeRegions` call becomes the `describeRegions` oracle, invoked exactly
as the source does, with the `AllRegions` input field left nil) and wraps
each returned name as a region with no VPCs. -/
def ListAllRegions (describeRegions : Except String (List String)) :
    Except String (List Region) :=
  match describeRegions with
  | .error e => .error ("failed to describe regions: " ++ e)
  | .ok names => .ok (names.map (fun n => ⟨n, []⟩))

/-- Embeds `getRegionsToScan`: full catalog when `allRegions`, else the scope's own
region list unchanged. -/
def getRegionsToScan (scope : ScanScope)
    (describeRegions : Except String (List String)) :
    Except String (List Region) :=
  if scope.allRegions then ListAllRegions describeRegions
  else .ok scope.regions

/-- One `GetInstances` invocation as issued by `Discover`: the filter list,
the exclude-tag list, and the region name. -/
structure GetInstancesCall where
  filters : List Filter
  excludeTags : List Tag
  region : String
deriving DecidableEq, Repr

/-- The inner per-VPC loop of `Discover` (lines 104–112): each iteration
queries with `vpcFilters := append(filters, createVPCFilters(vpc)...)`, i.e.
the base filters followed by this VPC's own filters, aborting on the first
error.  The issued calls are returned as a trace. -/
def discoverVPCs (query : GetInstancesCall → Except String (List DiscoveredInstance))
    (filters : List Filter) (excludeTags : List Tag) (regionName : String) :
    List VPC → Except String (List DiscoveredInstance) × List GetInstancesCall
  | [] => (.ok [], [])
  | vpc :: rest =>
    let vpcFilters := filters ++ createVPCFilters vpc
    let call : GetInstancesCall := ⟨vpcFilters, excludeTags, regionName⟩
    match query call with
    | .error e => (.error ("failed to get instances: " ++ e), [call])
    | .ok insts =>
      match discoverVPCs query filters excludeTags regionName rest with
      | (.error e, tr) => (.error e, call :: tr)
      | (.ok more, tr) => (.ok (insts ++ more), call :: tr)

/-- The region loop of `Discover` (lines 92–113): a region without VPCs is
queried once with the base filters; otherwise each VPC is queried through
`discoverVPCs`.  Results are appended in query order; the first error aborts. -/
def discoverRegionList
    (query : GetInstancesCall → Except String (List DiscoveredInstance))
    (filters : List Filter) (excludeTags : List Tag) :
    List Region → Except String (List DiscoveredInstance) × List GetInstancesCall
  | [] => (.ok [], [])
  | region :: rest =>
    if region.vpcs.length == 0 then
      let call : GetInstancesCall := ⟨filters, excludeTags, region.name⟩
      match query call with
      | .error e => (.error ("failed to get instances: " ++ e), [call])
      | .ok insts =>
        match discoverRegionList query filters excludeTags rest with
        | (.error e, tr) => (.error e, call :: tr)
        | (.ok more, tr) => (.ok (insts ++ more), call :: tr)
    else
      match discoverVPCs query filters excludeTags region.name region.vpcs with
      | (.error e, tr) => (.error e, tr)
      | (.ok insts, tr) =>
        match discoverRegionList query filters excludeTags rest with
        | (.error e, tr2) => (.error e, tr ++ tr2)
        | (.ok more, tr2) => (.ok (insts ++ more), tr ++ tr2)

/-- Embeds `Discover` from the converted scope on (lines 82–114): resolve regions,
fail on zero regions, build the base filters once (tag-inclusion then
instance-state), then run the region loop. -/
def Discover (scope : ScanScope)
    (describeRegions : Except String (List String))
    (query : GetInstancesCall → Except String (List DiscoveredInstance)) :
    Except String (List DiscoveredInstance) × List GetInstancesCall :=
  match getRegionsToScan scope describeRegions with
  | .error e => (.error ("failed to get regions to scan: " ++ e), [])
  | .ok regions =>
    if regions.length == 0 then (.error "no regions to scan", [])
    else
      let filters := createInclusionTagsFilters scope.tagSelector
        ++ createInstanceStateFilters scope.scanStopped
      discoverRegionList query filters scope.excludeTags regions

/-- Embeds `Discover` on the external aws scope (the source first converts it via
`convertScope`). -/
def DiscoverAws (scope : AwsScanScope)
    (describeRegions : Except String (List String))
    (query : GetInstancesCall → Except String (List DiscoveredInstance)) :
    Except String (List DiscoveredInstance) × List GetInstancesCall :=
  Discover (convertScope scope) describeRegions query

/-- The base filters `Discover` builds before the region loop. -/
def baseFilters (scope : ScanScope) : List Filter :=
  createInclusionTagsFilters scope.tagSelector
    ++ createInstanceStateFilters scope.scanStopped

/-- The calls `Discover` is expected to issue, per the spec's words: one call
with the base filters for a VPC-less region, else one call per VPC whose
filters are an independent copy of the base filters followed by exactly that
VPC's own filters. -/
def expectedCalls (filters : List Filter) (excludeTags : List Tag)
    (regions : List Region) : List GetInstancesCall :=
  regions.flatMap (fun r =>
    if r.vpcs.length == 0 then [⟨filters, excludeTags, r.name⟩]
    else r.vpcs.map (fun v => ⟨filters ++ createVPCFilters v, excludeTags, r.name⟩))

theorem discoverVPCs_ok_trace
    (query : GetInstancesCall → Except String (List DiscoveredInstance))
    (filters : List Filter) (excludeTags : List Tag) (regionName : String) :
    ∀ vpcs : List VPC,
      (discoverVPCs query filters excludeTags regionName vpcs).1.isOk = true →
      (discoverVPCs query filters excludeTags regionName vpcs).2
        = vpcs.map (fun v =>
            ⟨filters ++ createVPCFilters v, excludeTags, regionName⟩) := by
  intro vpcs
  induction vpcs with
  | nil => intro h; rfl
  | cons vpc rest ih =>
    intro h
    rcases hq : query ⟨filters ++ createVPCFilters vpc, excludeTags, regionName⟩
      with e | insts
    · have hstep : discoverVPCs query filters excludeTags regionName (vpc :: rest)
          = (.error ("failed to get instances: " ++ e),
             [⟨filters ++ createVPCFilters vpc, excludeTags, regionName⟩]) := by
        simp only [discoverVPCs]
        rw [hq]
      rw [hstep] at h
      simp [Except.isOk, Except.toBool] at h
    · rcases hrest : discoverVPCs query filters excludeTags regionName rest
        with ⟨res2, tr2⟩
      cases res2 with
      | error e2 =>
        have hstep : discoverVPCs query filters excludeTags regionName (vpc :: rest)
            = (.error e2,
               ⟨filters ++ createVPCFilters vpc, excludeTags, regionName⟩ :: tr2) := by
          simp only [discoverVPCs]
          rw [hq, hrest]
        rw [hstep] at h
        simp [Except.isOk, Except.toBool] at h
      | ok more =>
        have hstep : discoverVPCs query filters excludeTags regionName (vpc :: rest)
            = (.ok (insts ++ more),
               ⟨filters ++ createVPCFilters vpc, excludeTags, regionName⟩ :: tr2) := by
          simp only [discoverVPCs]
          rw [hq, hrest]
        have htr2 : tr2 = rest.map (fun v =>
            ⟨filters ++ createVPCFilters v, excludeTags, regionName⟩) := by
          have h2 := ih (by rw [hrest]; rfl)
          rw [hrest] at h2
          simpa using h2
        rw [hstep]
        simp [htr2]

theorem discoverRegionList_ok_trace
    (query : GetInstancesCall → Except String (List DiscoveredInstance))
    (filters : List Filter) (excludeTags : List Tag) :
    ∀ regions : List Region,
      (discoverRegionList query filters excludeTags regions).1.isOk = true →
      (discoverRegionList query filters excludeTags regions).2
        = expectedCalls filters excludeTags regions := by
  intro regions
  induction regions with
  | nil => intro h; rfl
  | cons region rest ih =>
    intro h
    by_cases hv : region.vpcs.length = 0
    · rcases hq : query ⟨filters, excludeTags, region.name⟩ with e | insts
      · have hstep : discoverRegionList query filters excludeTags (region :: rest)
            = (.error ("failed to get instances: " ++ e),
               [⟨filters, excludeTags, region.name⟩]) := by
          simp only [discoverRegionList]
          rw [if_pos (by simpa using hv), hq]
        rw [hstep] at h
        simp [Except.isOk, Except.toBool] at h
      · rcases hrest : discoverRegionList query filters excludeTags rest
          with ⟨res2, tr2⟩
        cases res2 with
        | error e2 =>
          have hstep : discoverRegionList query filters excludeTags (region :: rest)
              = (.error e2, ⟨filters, excludeTags, region.name⟩ :: tr2) := by
            simp only [discoverRegionList]
            rw [if_pos (by simpa using hv), hq, hrest]
          rw [hstep] at h
          simp [Except.isOk, Except.toBool] at h
        | ok more =>
          have hstep : discoverRegionList query filters excludeTags (region :: rest)
              = (.ok (insts ++ more), ⟨filters, excludeTags, region.name⟩ :: tr2) := by
            simp only [discoverRegionList]
            rw [if_pos (by simpa using hv), hq, hrest]
          have hrest2 : tr2 = expectedCalls filters excludeTags rest := by
            have h2 := ih (by rw [hrest]; rfl)
            rw [hrest] at h2
            simpa using h2
          rw [hstep]
          simp [expectedCalls, List.length_eq_zero.mp hv, hrest2, List.flatMap_cons]
    · rcases hvp : discoverVPCs query filters excludeTags region.name region.vpcs
        with ⟨res1, tr1⟩
      cases res1 with
      | error e =>
        have hstep : discoverRegionList query filters excludeTags (region :: rest)
            = (.error e, tr1) := by
          simp only [discoverRegionList]
          rw [if_neg (by simpa using hv), hvp]
        rw [hstep] at h
        simp [Except.isOk, Except.toBool] at h
      | ok insts =>
        rcases hrest : discoverRegionList query filters excludeTags rest
          with ⟨res2, tr2⟩
        cases res2 with
        | error e2 =>
          have hstep : discoverRegionList query filters excludeTags (region :: rest)
              = (.error e2, tr1 ++ tr2) := by
            simp only [discoverRegionList]
            rw [if_neg (by simpa using hv), hvp, hrest]
          rw [hstep] at h
          simp [Except.isOk, Except.toBool] at h
        | ok more =>
          have hstep : discoverRegionList query filters excludeTags (region :: rest)
              = (.ok (insts ++ more), tr1 ++ tr2) := by
            simp only [discoverRegionList]
            rw [if_neg (by simpa using hv), hvp, hrest]
          have htr1 : tr1 = region.vpcs.map (fun v =>
              ⟨filters ++ createVPCFilters v, excludeTags, region.name⟩) := by
            have h1 := discoverVPCs_ok_trace query filters excludeTags region.name
              region.vpcs (by rw [hvp]; rfl)
            rw [hvp] at h1
            simpa using h1
          have hrest2 : tr2 = expectedCalls filters excludeTags rest := by
            have h2 := ih (by rw [hrest]; rfl)
            rw [hrest] at h2
            simpa using h2
          have hne : region.vpcs ≠ [] := by
            intro hx
            exact hv (by simp [hx])
          rw [hstep]
          simp [expectedCalls, hne, htr1, hrest2, List.flatMap_cons]

/-- C1: whenever a discovery succeeds, the queries it issued are exactly one
per VPC-less region with the base filters, and one per VPC whose filter list
is the base filters (tag-inclusion then instance-state) followed by exactly
that VPC's own filters; consequently every filter of every issued query is
either a base filter or belongs to that very VPC's compiled filters — one
VPC's appended filters never appear in another VPC's query, and the base
filter list itself (a pure value in this embedding, read-only in the source)
is the same in every iteration. -/
theorem c1_vpc_filter_isolation (scope : ScanScope)
    (describeRegions : Except String (List String))
    (query : GetInstancesCall → Except String (List DiscoveredInstance))
    (regions : List Region)
    (hreg : getRegionsToScan scope describeRegions = .ok regions)
    (hok : (Discover scope describeRegions query).1.isOk = true) :
    (Discover scope describeRegions query).2
      = expectedCalls (baseFilters scope) scope.excludeTags regions
    ∧ ∀ call ∈ (Discover scope describeRegions query).2,
        call.filters = baseFilters scope ∨
          ∃ r ∈ regions, ∃ v ∈ r.vpcs,
            call = ⟨baseFilters scope ++ createVPCFilters v,
                    scope.excludeTags, r.name⟩ := by
  by_cases hz : regions.length = 0
  · exfalso
    have hD : Discover scope describeRegions query
        = (.error "no regions to scan", []) := by
      simp [Discover, hreg, hz]
    rw [hD] at hok
    simp [Except.isOk, Except.toBool] at hok
  · have hD : Discover scope describeRegions query
        = discoverRegionList query (baseFilters scope) scope.excludeTags regions := by
      simp [Discover, hreg, hz, baseFilters]
    rw [hD] at hok ⊢
    have htr := discoverRegionList_ok_trace query (baseFilters scope)
      scope.excludeTags regions hok
    refine ⟨htr, ?_⟩
    intro call hcall
    rw [htr] at hcall
    rw [expectedCalls, List.mem_flatMap] at hcall
    rcases hcall with ⟨r, hr, hcall⟩
    by_cases hv : r.vpcs.length = 0
    · rw [if_pos (by simpa using hv)] at hcall
      simp at hcall
      subst hcall
      exact Or.inl rfl
    · rw [if_neg (by simpa using hv)] at hcall
      rw [List.mem_map] at hcall
      rcases hcall with ⟨v, hvmem, hcall⟩
      exact Or.inr ⟨r, hr, v, hvmem, hcall.symm⟩

/-- C1 witness: a region with two VPCs, a tag selector, and an all-ok query. -/
theorem c1_vpc_filter_isolation_witness :
    (Discover ⟨false, [⟨"r1", [⟨"vpc-1", []⟩, ⟨"vpc-2", [⟨"sg-1"⟩]⟩]⟩],
        false, [⟨"env", "prod"⟩], []⟩ (.ok [])
        (fun _ => .ok [])).2
      = expectedCalls
          (baseFilters ⟨false, [⟨"r1", [⟨"vpc-1", []⟩, ⟨"vpc-2", [⟨"sg-1"⟩]⟩]⟩],
            false, [⟨"env", "prod"⟩], []⟩)
          [] [⟨"r1", [⟨"vpc-1", []⟩, ⟨"vpc-2", [⟨"sg-1"⟩]⟩]⟩]
    ∧ ∀ call ∈ (Discover ⟨false, [⟨"r1", [⟨"vpc-1", []⟩, ⟨"vpc-2", [⟨"sg-1"⟩]⟩]⟩],
          false, [⟨"env", "prod"⟩], []⟩ (.ok [])
          (fun _ => .ok [])).2,
        call.filters = baseFilters ⟨false, [⟨"r1", [⟨"vpc-1", []⟩, ⟨"vpc-2", [⟨"sg-1"⟩]⟩]⟩],
            false, [⟨"env", "prod"⟩], []⟩ ∨
          ∃ r ∈ [⟨"r1", [⟨"vpc-1", []⟩, ⟨"vpc-2", [⟨"sg-1"⟩]⟩]⟩],
            ∃ v ∈ Region.vpcs r,
              call = ⟨baseFilters ⟨false, [⟨"r1", [⟨"vpc-1", []⟩, ⟨"vpc-2", [⟨"sg-1"⟩]⟩]⟩],
                  false, [⟨"env", "prod"⟩], []⟩ ++ createVPCFilters v,
                [], Region.name r⟩ :=
  c1_vpc_filter_isolation
    ⟨false, [⟨"r1", [⟨"vpc-1", []⟩, ⟨"vpc-2", [⟨"sg-1"⟩]⟩]⟩], false,
      [⟨"env", "prod"⟩], []⟩
    (.ok []) (fun _ => .ok [])
    [⟨"r1", [⟨"vpc-1", []⟩, ⟨"vpc-2", [⟨"sg-1"⟩]⟩]⟩] rfl rfl

/-- C4: with `all_regions` true, the resolved region list is exactly the
provider's catalog of region names, each wrapped with no VPC restriction (and
a catalog failure is wrapped); with `all_regions` false, the scope's region
list is returned unchanged, with no provider call influencing the result. -/
theorem c4_region_resolution (scope : ScanScope) (names : List String)
    (e : String) (describeRegions : Except String (List String)) :
    (scope.allRegions = true →
        getRegionsToScan scope (.ok names)
          = .ok (names.map (fun n => ⟨n, []⟩))
      ∧ getRegionsToScan scope (.error e)
          = .error ("failed to describe regions: " ++ e))
    ∧ (scope.allRegions = false →
        getRegionsToScan scope describeRegions = .ok scope.regions) := by
  constructor
  · intro h
    constructor <;> simp [getRegionsToScan, ListAllRegions, h]
  · intro h
    simp [getRegionsToScan, h]

/-- C4 witness: concrete evaluations for both `all_regions` settings. -/
theorem c4_region_resolution_witness :
    getRegionsToScan ⟨true, [], false, [], []⟩ (.ok ["us-east-1", "eu-west-1"])
        = .ok [⟨"us-east-1", []⟩, ⟨"eu-west-1", []⟩]
    ∧ getRegionsToScan ⟨false, [⟨"r1", []⟩], false, [], []⟩ (.ok ["x"])
        = .ok [⟨"r1", []⟩] :=
  ⟨((c4_region_resolution ⟨true, [], false, [], []⟩ ["us-east-1", "eu-west-1"]
      "" (.ok [])).1 rfl).1,
   (c4_region_resolution ⟨false, [⟨"r1", []⟩], false, [], []⟩ [] ""
      (.ok ["x"])).2 rfl⟩

theorem discoverVPCs_fail_spec
    (query : GetInstancesCall → Except String (List DiscoveredInstance))
    (filters : List Filter) (excludeTags : List Tag) (regionName : String) :
    ∀ vpcs : List VPC,
      ((discoverVPCs query filters excludeTags regionName vpcs).1.isOk = true
        ∧ ∀ c ∈ (discoverVPCs query filters excludeTags regionName vpcs).2,
            (query c).isOk = true)
      ∨ ∃ pre call e,
          (discoverVPCs query filters excludeTags regionName vpcs).2 = pre ++ [call]
          ∧ (∀ c ∈ pre, (query c).isOk = true)
          ∧ query call = .error e
          ∧ (discoverVPCs query filters excludeTags regionName vpcs).1
              = .error ("failed to get instances: " ++ e) := by
  intro vpcs
  induction vpcs with
  | nil => exact Or.inl ⟨rfl, by intro c hc; cases hc⟩
  | cons vpc rest ih =>
    rcases hq : query ⟨filters ++ createVPCFilters vpc, excludeTags, regionName⟩
      with e | insts
    · refine Or.inr ⟨[], ⟨filters ++ createVPCFilters vpc, excludeTags, regionName⟩,
        e, ?_, ?_, hq, ?_⟩
      · have hstep : discoverVPCs query filters excludeTags regionName (vpc :: rest)
            = (.error ("failed to get instances: " ++ e),
               [⟨filters ++ createVPCFilters vpc, excludeTags, regionName⟩]) := by
          simp only [discoverVPCs]
          rw [hq]
        rw [hstep]
        rfl
      · intro c hc; cases hc
      · have hstep : discoverVPCs query filters excludeTags regionName (vpc :: rest)
            = (.error ("failed to get instances: " ++ e),
               [⟨filters ++ createVPCFilters vpc, excludeTags, regionName⟩]) := by
          simp only [discoverVPCs]
          rw [hq]
        rw [hstep]
    · rcases hrest : discoverVPCs query filters excludeTags regionName rest
        with ⟨res2, tr2⟩
      cases res2 with
      | error e2 =>
        have hstep : discoverVPCs query filters excludeTags regionName (vpc :: rest)
            = (.error e2,
               ⟨filters ++ createVPCFilters vpc, excludeTags, regionName⟩ :: tr2) := by
          simp only [discoverVPCs]
          rw [hq, hrest]
        rcases ih with ⟨hok2, _⟩ | ⟨pre, call2, e0, htr, hpre, hq2, hres⟩
        · rw [hrest] at hok2
          simp [Except.isOk, Except.toBool] at hok2
        · rw [hrest] at htr hres
          simp only at htr hres
          refine Or.inr ⟨⟨filters ++ createVPCFilters vpc, excludeTags, regionName⟩
            :: pre, call2, e0, ?_, ?_, hq2, ?_⟩
          · rw [hstep]
            simp [htr]
          · intro c hc
            rcases List.mem_cons.mp hc with hc | hc
            · subst hc; rw [hq]; rfl
            · exact hpre c hc
          · rw [hstep]
            simp only
            rw [show Except.error e2
                = (Except.error ("failed to get instances: " ++ e0)
                    : Except String (List DiscoveredInstance)) from hres]
      | ok more =>
        have hstep : discoverVPCs query filters excludeTags regionName (vpc :: rest)
            = (.ok (insts ++ more),
               ⟨filters ++ createVPCFilters vpc, excludeTags, regionName⟩ :: tr2) := by
          simp only [discoverVPCs]
          rw [hq, hrest]
        rcases ih with ⟨_, hcalls⟩ | ⟨pre, call2, e0, htr, hpre, hq2, hres⟩
        · refine Or.inl ⟨by rw [hstep]; rfl, ?_⟩
          rw [hstep]
          intro c hc
          rcases List.mem_cons.mp hc with hc | hc
          · subst hc; rw [hq]; rfl
          · exact hcalls c (by rw [hrest]; exact hc)
        · rw [hrest] at hres
          simp at hres

theorem discoverRegionList_fail_spec
    (query : GetInstancesCall → Except String (List DiscoveredInstance))
    (filters : List Filter) (excludeTags : List Tag) :
    ∀ regions : List Region,
      ((discoverRegionList query filters excludeTags regions).1.isOk = true
        ∧ ∀ c ∈ (discoverRegionList query filters excludeTags regions).2,
            (query c).isOk = true)
      ∨ ∃ pre call e,
          (discoverRegionList query filters excludeTags regions).2 = pre ++ [call]
          ∧ (∀ c ∈ pre, (query c).isOk = true)
          ∧ query call = .error e
          ∧ (discoverRegionList query filters excludeTags regions).1
              = .error ("failed to get instances: " ++ e) := by
  intro regions
  induction regions with
  | nil => exact Or.inl ⟨rfl, by intro c hc; cases hc⟩
  | cons region rest ih =>
    by_cases hv : region.vpcs.length = 0
    · rcases hq : query ⟨filters, excludeTags, region.name⟩ with e | insts
      · have hstep : discoverRegionList query filters excludeTags (region :: rest)
            = (.error ("failed to get instances: " ++ e),
               [⟨filters, excludeTags, region.name⟩]) := by
          simp only [discoverRegionList]
          rw [if_pos (by simpa using hv), hq]
        refine Or.inr ⟨[], ⟨filters, excludeTags, region.name⟩, e, ?_,
          (by intro c hc; cases hc), hq, ?_⟩
        · rw [hstep]; rfl
        · rw [hstep]
      · rcases hrest : discoverRegionList query filters excludeTags rest
          with ⟨res2, tr2⟩
        cases res2 with
        | error e2 =>
          have hstep : discoverRegionList query filters excludeTags (region :: rest)
              = (.error e2, ⟨filters, excludeTags, region.name⟩ :: tr2) := by
            simp only [discoverRegionList]
            rw [if_pos (by simpa using hv), hq, hrest]
          rcases ih with ⟨hok2, _⟩ | ⟨pre, call2, e0, htr, hpre, hq2, hres⟩
          · rw [hrest] at hok2
            simp [Except.isOk, Except.toBool] at hok2
          · rw [hrest] at htr hres
            simp only at htr hres
            refine Or.inr ⟨⟨filters, excludeTags, region.name⟩ :: pre, call2, e0,
              ?_, ?_, hq2, ?_⟩
            · rw [hstep]; simp [htr]
            · intro c hc
              rcases List.mem_cons.mp hc with hc | hc
              · subst hc; rw [hq]; rfl
              · exact hpre c hc
            · rw [hstep]
              simp only
              rw [show Except.error e2
                  = (Except.error ("failed to get instances: " ++ e0)
                      : Except String (List DiscoveredInstance)) from hres]
        | ok more =>
          have hstep : discoverRegionList query filters excludeTags (region :: rest)
              = (.ok (insts ++ more), ⟨filters, excludeTags, region.name⟩ :: tr2) := by
            simp only [discoverRegionList]
            rw [if_pos (by simpa using hv), hq, hrest]
          rcases ih with ⟨_, hcalls⟩ | ⟨pre, call2, e0, htr, hpre, hq2, hres⟩
          · refine Or.inl ⟨by rw [hstep]; rfl, ?_⟩
            rw [hstep]
            intro c hc
            rcases List.mem_cons.mp hc with hc | hc
            · subst hc; rw [hq]; rfl
            · exact hcalls c (by rw [hrest]; exact hc)
          · rw [hrest] at hres
            simp at hres
    · rcases hvp : discoverVPCs query filters excludeTags region.name region.vpcs
        with ⟨res1, tr1⟩
      have hv1 := discoverVPCs_fail_spec query filters excludeTags region.name
        region.vpcs
      rw [hvp] at hv1
      simp only at hv1
      cases res1 with
      | error e1 =>
        have hstep : discoverRegionList query filters excludeTags (region :: rest)
            = (.error e1, tr1) := by
          simp only [discoverRegionList]
          rw [if_neg (by simpa using hv), hvp]
        rcases hv1 with ⟨hok1, _⟩ | ⟨pre, call1, e0, htr, hpre, hq1, hres⟩
        · simp [Except.isOk, Except.toBool] at hok1
        · refine Or.inr ⟨pre, call1, e0, ?_, hpre, hq1, ?_⟩
          · rw [hstep]; exact htr
          · rw [hstep]
            simp only
            rw [show Except.error e1
                = (Except.error ("failed to get instances: " ++ e0)
                    : Except String (List DiscoveredInstance)) from hres]
      | ok insts =>
        rcases hv1 with ⟨_, hcalls1⟩ | ⟨_, _, _, _, _, _, hres⟩
        · rcases hrest : discoverRegionList query filters excludeTags rest
            with ⟨res2, tr2⟩
          cases res2 with
          | error e2 =>
            have hstep : discoverRegionList query filters excludeTags (region :: rest)
                = (.error e2, tr1 ++ tr2) := by
              simp only [discoverRegionList]
              rw [if_neg (by simpa using hv), hvp, hrest]
            rcases ih with ⟨hok2, _⟩ | ⟨pre, call2, e0, htr, hpre, hq2, hres2⟩
            · rw [hrest] at hok2
              simp [Except.isOk, Except.toBool] at hok2
            · rw [hrest] at htr hres2
              simp only at htr hres2
              refine Or.inr ⟨tr1 ++ pre, call2, e0, ?_, ?_, hq2, ?_⟩
              · rw [hstep]
                simp [htr]
              · intro c hc
                rcases List.mem_append.mp hc with hc | hc
                · exact hcalls1 c hc
                · exact hpre c hc
              · rw [hstep]
                simp only
                rw [show Except.error e2
                    = (Except.error ("failed to get instances: " ++ e0)
                        : Except String (List DiscoveredInstance)) from hres2]
          | ok more =>
            have hstep : discoverRegionList query filters excludeTags (region :: rest)
                = (.ok (insts ++ more), tr1 ++ tr2) := by
              simp only [discoverRegionList]
              rw [if_neg (by simpa using hv), hvp, hrest]
            rcases ih with ⟨_, hcalls2⟩ | ⟨pre, call2, e0, htr, hpre, hq2, hres2⟩
            · refine Or.inl ⟨by rw [hstep]; rfl, ?_⟩
              rw [hstep]
              intro c hc
              rcases List.mem_append.mp hc with hc | hc
              · exact hcalls1 c hc
              · exact hcalls2 c (by rw [hrest]; exact hc)
            · rw [hrest] at hres2
              simp at hres2
        · simp at hres

/-- C5: if any issued region/VPC instance query fails, `Discover` stops at the
first failing query — its call trace is the successful prefix followed by that
single failing call, issued once with no retry — and the overall result is the
wrapped error with no instance list (the earlier regions' results are
discarded, not returned). -/
theorem c5_discover_fail_fast (scope : ScanScope)
    (describeRegions : Except String (List String))
    (query : GetInstancesCall → Except String (List DiscoveredInstance))
    (hfail : ∃ call ∈ (Discover scope describeRegions query).2,
        (query call).isOk = false) :
    ∃ pre call e,
      (Discover scope describeRegions query).2 = pre ++ [call]
      ∧ (∀ c ∈ pre, (query c).isOk = true)
      ∧ query call = .error e
      ∧ (Discover scope describeRegions query).1
          = .error ("failed to get instances: " ++ e) := by
  rcases hgr : getRegionsToScan scope describeRegions with e | regions
  · exfalso
    rcases hfail with ⟨c, hc, _⟩
    rw [show Discover scope describeRegions query
        = (.error ("failed to get regions to scan: " ++ e), []) from by
      simp [Discover, hgr]] at hc
    cases hc
  · by_cases hz : regions.length = 0
    · exfalso
      rcases hfail with ⟨c, hc, _⟩
      rw [show Discover scope describeRegions query
          = (.error "no regions to scan", []) from by
        simp [Discover, hgr, hz]] at hc
      cases hc
    · have hD : Discover scope describeRegions query
          = discoverRegionList query (baseFilters scope) scope.excludeTags regions := by
        simp [Discover, hgr, hz, baseFilters]
      rw [hD] at hfail ⊢
      rcases discoverRegionList_fail_spec query (baseFilters scope)
        scope.excludeTags regions with ⟨_, hcalls⟩ | hspec
      · exfalso
        rcases hfail with ⟨c, hc, hbad⟩
        rw [hcalls c hc] at hbad
        cases hbad
      · exact hspec

/-- C5 witness: a single-region scope whose query always fails. -/
theorem c5_discover_fail_fast_witness :
    ∃ pre call e,
      (Discover ⟨false, [⟨"r1", []⟩], false, [], []⟩ (.ok [])
          (fun _ => .error "boom")).2 = pre ++ [call]
      ∧ (∀ c ∈ pre, ((fun (_ : GetInstancesCall) =>
            (.error "boom" : Except String (List DiscoveredInstance))) c).isOk = true)
      ∧ (fun (_ : GetInstancesCall) =>
            (.error "boom" : Except String (List DiscoveredInstance))) call
          = .error e
      ∧ (Discover ⟨false, [⟨"r1", []⟩], false, [], []⟩ (.ok [])
          (fun _ => .error "boom")).1
          = .error ("failed to get instances: " ++ e) :=
  c5_discover_fail_fast ⟨false, [⟨"r1", []⟩], false, [], []⟩ (.ok [])
    (fun _ => .error "boom")
    ⟨⟨[⟨instanceStateFilterName, ["running"]⟩], [], "r1"⟩, by
      rw [show (Discover ⟨false, [⟨"r1", []⟩], false, [], []⟩ (.ok [])
          (fun _ => .error "boom")).2
        = [⟨[⟨instanceStateFilterName, ["running"]⟩], [], "r1"⟩] from rfl]
      exact List.mem_singleton.mpr rfl, rfl⟩

/-- Embeds `provider.ScanningJobConfig` fields used by `RunScanningJob`. -/
structure ScanningJobConfig where
  scannerImage : String
  scannerCLIConfig : String
  vmClarityAddress : String
  scanResultID : String
  keyPairName : String
deriving DecidableEq, Repr

/-- Embeds `aws.Config` fields used by `RunScanningJob`. -/
structure AwsConfig where
  amiID : String
  subnetID : String
  securityGroupID : String
deriving DecidableEq, Repr

/-- The `Owner` tag key constant (`tagKey`). -/
def tagKey : String := "Owner"

/-- The `Owner` tag value constant (`tagVal`). -/
def tagVal : String := "VMClarity"

/-- Embeds `vmclarityTags`: the fixed ownership tag list. -/
def vmclarityTags : List EC2Tag := [⟨tagKey, tagVal⟩]

/-- Embeds `nameTagKey`. -/
def nameTagKey : String := "Name"

/-- Embeds `createInstanceTags`: the ownership tag followed by the
`Name = vmclarity-scanner-<id>` tag. -/
def createInstanceTags (id : String) : List EC2Tag :=
  let nameTagValue := "vmclarity-scanner-" ++ id
  vmclarityTags ++ [⟨nameTagKey, nameTagValue⟩]

/-- Embeds `ec2types.TagSpecification`: a resource type with its tags. -/
structure TagSpecification where
  resourceType : String
  tags : List EC2Tag
deriving DecidableEq, Repr

/-- Embeds `ec2types.InstanceNetworkInterfaceSpecification` fields set by the source. -/
structure NetworkInterfaceSpec where
  associatePublicIpAddress : Bool
  deleteOnTermination : Bool
  deviceIndex : Nat
  groups : List String
  subnetId : String
deriving DecidableEq, Repr

/-- Embeds `ec2.RunInstancesInput` fields set by `RunScanningJob` (`KeyName` is a
nullable pointer, left nil unless a key pair is configured). -/
structure RunInstancesInput where
  maxCount : Nat
  minCount : Nat
  imageId : String
  instanceType : String
  tagSpecifications : List TagSpecification
  userData : String
  networkInterfaces : List NetworkInterfaceSpec
  keyName : Option String
deriving DecidableEq, Repr

/-- The pure launch-request construction inside `RunScanningJob`
(lines 211–243): one instance of the fixed size class, tag specifications for
the instance and its volume, the encoded bootstrap payload, one private
network interface in the scanner subnet/security group, and the key pair only
when `config.KeyPairName != ""`. -/
def buildRunInstancesInput (awsCfg : AwsConfig) (id : String)
    (config : ScanningJobConfig) (userDataBase64 : String) : RunInstancesInput :=
  let base : RunInstancesInput :=
    { maxCount := 1
      minCount := 1
      imageId := awsCfg.amiID
      instanceType := "t2.large"
      tagSpecifications :=
        [⟨"instance", createInstanceTags id⟩, ⟨"volume", vmclarityTags⟩]
      userData := userDataBase64
      networkInterfaces :=
        [⟨false, true, 0, [awsCfg.securityGroupID], awsCfg.subnetID⟩]
      keyName := none }
  if config.keyPairName ≠ "" then { base with keyName := some config.keyPairName }
  else base

/-- C9: an empty `key_pair_name` leaves the launch request's key-pair field
unset (no default substituted); a non-empty one is attached verbatim; in both
cases the ownership tag is on the instance tag specification and on the
volume tag specification. -/
theorem c9_key_pair_handling (awsCfg : AwsConfig) (id : String)
    (config : ScanningJobConfig) (userDataBase64 : String) :
    (config.keyPairName = "" →
        (buildRunInstancesInput awsCfg id config userDataBase64).keyName = none)
    ∧ (config.keyPairName ≠ "" →
        (buildRunInstancesInput awsCfg id config userDataBase64).keyName
          = some config.keyPairName)
    ∧ (buildRunInstancesInput awsCfg id config userDataBase64).tagSpecifications
        = [⟨"instance", createInstanceTags id⟩, ⟨"volume", vmclarityTags⟩]
    ∧ ⟨tagKey, tagVal⟩ ∈ createInstanceTags id
    ∧ ⟨tagKey, tagVal⟩ ∈ vmclarityTags := by
  by_cases h : config.keyPairName = "" <;>
    simp [buildRunInstancesInput, h, createInstanceTags, vmclarityTags]

/-- C9 witness: concrete requests with and without a key pair. -/
theorem c9_key_pair_handling_witness :
    (buildRunInstancesInput ⟨"ami", "subnet", "sg"⟩ "t1"
        ⟨"img", "cfg", "addr", "sr", ""⟩ "ud").keyName = none
    ∧ (buildRunInstancesInput ⟨"ami", "subnet", "sg"⟩ "t1"
        ⟨"img", "cfg", "addr", "sr", "k1"⟩ "ud").keyName = some "k1"
    ∧ ⟨tagKey, tagVal⟩ ∈ createInstanceTags "t1"
    ∧ ⟨tagKey, tagVal⟩ ∈ vmclarityTags :=
  ⟨(c9_key_pair_handling ⟨"ami", "subnet", "sg"⟩ "t1"
      ⟨"img", "cfg", "addr", "sr", ""⟩ "ud").1 rfl,
   ((c9_key_pair_handling ⟨"ami", "subnet", "sg"⟩ "t1"
      ⟨"img", "cfg", "addr", "sr", "k1"⟩ "ud").2.1 (by decide)),
   (c9_key_pair_handling ⟨"ami", "subnet", "sg"⟩ "t1"
      ⟨"img", "cfg", "addr", "sr", ""⟩ "ud").2.2.2.1,
   (c9_key_pair_handling ⟨"ami", "subnet", "sg"⟩ "t1"
      ⟨"img", "cfg", "addr", "sr", ""⟩ "ud").2.2.2.2⟩

/-- C10: every launch request carries exactly two tag specifications — the
instance one with the `Owner=VMClarity` tag followed by the
`Name=vmclarity-scanner-<target id>` tag, and the volume one with the
`Owner=VMClarity` tag — for every region-independent input (config, target
id, aws config, payload); the ownership tag is never omitted. -/
theorem c10_tagging_invariant (awsCfg : AwsConfig) (id : String)
    (config : ScanningJobConfig) (userDataBase64 : String) :
    (buildRunInstancesInput awsCfg id config userDataBase64).tagSpecifications
      = [⟨"instance", [⟨"Owner", "VMClarity"⟩,
            ⟨"Name", "vmclarity-scanner-" ++ id⟩]⟩,
         ⟨"volume", [⟨"Owner", "VMClarity"⟩]⟩] := by
  by_cases h : config.keyPairName = "" <;>
    simp [buildRunInstancesInput, h, createInstanceTags, vmclarityTags,
      tagKey, tagVal, nameTagKey]

end VMClarity
